import Mathlib

/-!
# Verification of djblets' Web API token policy validation and error classes

A shallow embedding of `djblets/webapi/models.py` (the
`BaseWebAPIToken` model: `validate_policy`, `_validate_policy_section`,
`_get_valid_policy_ids`, `is_accessible_by` / `is_mutable_by` /
`is_deletable_by`, `is_expired`, `save`) and of
`djblets/webapi/errors.py` (`WebAPIError.with_overrides`,
`WebAPIError.with_message`), together with theorems about them.

Python values reaching `validate_policy` are modelled by `PyValue`
(JSON-style data); dictionaries are association lists in insertion
order, with keys drawn from the hashable immutables `PyKey` (lists and
dicts are unhashable in Python and cannot be dict keys).  Python
exceptions escaping `validate_policy` are modelled by the `PyOutcome`
result type; `ValidationError` messages are modelled structurally by
`PolicyError` (which error was raised, and about which key), rather
than by reimplementing Python string formatting.
-/

set_option autoImplicit false

namespace Djblets

/-- Hashable immutable Python values usable as dictionary keys. -/
inductive PyKey where
  | kStr (s : String)
  | kInt (n : Int)
  | kBool (b : Bool)
  | kNone
  deriving DecidableEq, Repr

/-- JSON-style Python values: `None`, booleans, integers, strings,
lists and dictionaries (association lists in insertion order). -/
inductive PyValue where
  | pyNone
  | pyBool (b : Bool)
  | pyInt (n : Int)
  | pyStr (s : String)
  | pyList (xs : List PyValue)
  | pyDict (entries : List (PyKey × PyValue))
  deriving Repr

/-- Python `d[k]` on a dictionary: the value of the first entry with
key `k`, if any. -/
def lookupKey (entries : List (PyKey × PyValue)) (k : PyKey) : Option PyValue :=
  match entries with
  | [] => none
  | (k', v) :: rest => if k' = k then some v else lookupKey rest k

/-- Python `k in d` on a dictionary. -/
def hasKey (entries : List (PyKey × PyValue)) (k : PyKey) : Bool :=
  (lookupKey entries k).isSome

/-- Python `isinstance(v, list)`. -/
def PyValue.isList : PyValue → Bool
  | .pyList _ => true
  | _ => false

/-- Python `isinstance(k, str)` on a dictionary key. -/
def PyKey.isStr : PyKey → Bool
  | .kStr _ => true
  | _ => false

/-- The `full_section_name` argument of `_validate_policy_section`,
kept structural: `'resources.*'`, or
`'resources.%s.%s' % (policy_id, subsection_name)`. -/
inductive SectionPath where
  | star
  | sub (policy_id : PyKey) (subsection_name : PyKey)
  deriving DecidableEq, Repr

/-- A `ValidationError` raised by `validate_policy` or
`_validate_policy_section`, identified structurally (which check
failed, and about which key or section). -/
inductive PolicyError where
  | notAJsonObject
  | missingResources
  | resourcesNotObject
  | resourcesEmpty
  | invalidPolicyId (policy_id : PyKey)
  | subsectionNameNotString (subsection_name : PyKey) (policy_id : PyKey)
  | sectionNotObject (path : SectionPath)
  | sectionMissingRules (path : SectionPath)
  | allowNotList (path : SectionPath)
  | blockNotList (path : SectionPath)
  deriving DecidableEq, Repr

/-- How a call into the policy-validation code can end: normal return,
a raised `ValidationError`, a raised `AttributeError` (calling
`.items()` on a non-dict), a raised `NotImplementedError` (from
`get_root_resource` on the abstract base class), or a raised
`KeyError` (indexing a dict at a missing key). -/
inductive PyOutcome where
  | ok
  | validationError (e : PolicyError)
  | attributeError
  | notImplementedError
  | keyError
  deriving DecidableEq, Repr

/-- Sequencing of Python statements: a raised exception on the left
short-circuits. -/
def pySeq (a b : PyOutcome) : PyOutcome :=
  match a with
  | .ok => b
  | e => e

/-- A Web API resource, as consumed by `_get_valid_policy_ids`: an
optional `policy_id` attribute (`hasattr(resource, 'policy_id')`), and
`list_child_resources` / `item_child_resources` lists. -/
inductive Resource where
  | mk (policy_id : Option String)
       (list_child_resources : List Resource)
       (item_child_resources : List Resource)

/-- The `policy_id` attribute, when present. -/
def Resource.policy_id : Resource → Option String
  | .mk pid _ _ => pid

/-- The `list_child_resources` attribute. -/
def Resource.list_child_resources : Resource → List Resource
  | .mk _ lcs _ => lcs

/-- The `item_child_resources` attribute. -/
def Resource.item_child_resources : Resource → List Resource
  | .mk _ _ ics => ics

mutual
/-- `BaseWebAPIToken._get_valid_policy_ids`: collect the `policy_id`
attributes of `resource` and, recursively, of everything below it in
`list_child_resources` and `item_child_resources`.  The Python code
accumulates into a set; here the collected ids are returned as a list
(membership is what every use of the result consults). -/
def get_valid_policy_ids : Resource → List String
  | .mk pid lcs ics =>
      pid.toList ++ getValidPolicyIdsOf lcs ++ getValidPolicyIdsOf ics

/-- The `for child_resource in ...` loops of `_get_valid_policy_ids`. -/
def getValidPolicyIdsOf : List Resource → List String
  | [] => []
  | r :: rs => get_valid_policy_ids r ++ getValidPolicyIdsOf rs
end

/-- Python `policy_id in valid_policy_ids`, for a dict key tested
against the set of (string) policy ids. -/
def keyInIds (k : PyKey) (ids : List String) : Bool :=
  match k with
  | .kStr s => ids.contains s
  | _ => false

/-- `BaseWebAPIToken._validate_policy_section(parent_section,
section_name, full_section_name)`: look the section up in its parent
and check its shape (a dict with `allow` and/or `block`, each a list
when present). -/
def validate_policy_section (parent_section : List (PyKey × PyValue))
    (section_name : PyKey) (path : SectionPath) : PyOutcome :=
  match lookupKey parent_section section_name with
  | none => .keyError
  | some sec =>
    match sec with
    | .pyDict s =>
      if ¬ hasKey s (.kStr "allow") ∧ ¬ hasKey s (.kStr "block") then
        .validationError (.sectionMissingRules path)
      else if hasKey s (.kStr "allow") ∧
          ¬ (lookupKey s (.kStr "allow")).all PyValue.isList then
        .validationError (.allowNotList path)
      else if hasKey s (.kStr "block") ∧
          ¬ (lookupKey s (.kStr "block")).all PyValue.isList then
        .validationError (.blockNotList path)
      else
        .ok
    | _ => .validationError (.sectionNotObject path)

/-- The inner loop of `validate_policy` over `section.items()` for one
resource policy: check each subsection name is a string, then validate
the subsection's shape.  The whole `section` dict is carried along
because `_validate_policy_section` re-indexes it by name. -/
def validateSubsectionItems (policy_id : PyKey)
    (sec : List (PyKey × PyValue)) :
    List (PyKey × PyValue) → PyOutcome
  | [] => .ok
  | (subsection_name, _) :: rest =>
    if ¬ subsection_name.isStr then
      .validationError (.subsectionNameNotString subsection_name policy_id)
    else
      pySeq (validate_policy_section sec subsection_name
              (.sub policy_id subsection_name))
        (validateSubsectionItems policy_id sec rest)

/-- The `for subsection_name, subsection in section.items()` call: a
non-dict `section` has no `.items()`, so Python raises
`AttributeError` there. -/
def validateResourceSection (policy_id : PyKey) (sec : PyValue) :
    PyOutcome :=
  match sec with
  | .pyDict s => validateSubsectionItems policy_id s s
  | _ => .attributeError

/-- The `for policy_id, section in resource_policies` loop of
`validate_policy`: reject the first key that is not a valid policy id,
and otherwise validate that resource's subsections. -/
def validatePolicies (valid_policy_ids : List String) :
    List (PyKey × PyValue) → PyOutcome
  | [] => .ok
  | (policy_id, sec) :: rest =>
    if ¬ keyInIds policy_id valid_policy_ids then
      .validationError (.invalidPolicyId policy_id)
    else
      pySeq (validateResourceSection policy_id sec)
        (validatePolicies valid_policy_ids rest)

/-- `BaseWebAPIToken.validate_policy(policy)`.  `root` models
`cls.get_root_resource()`: `none` stands for the abstract base class,
whose `get_root_resource` raises `NotImplementedError`; `some r` for a
subclass returning the resource tree `r`.  The tree is consulted only
where the Python code calls `get_root_resource()`. -/
def validate_policy (root : Option Resource) (policy : PyValue) :
    PyOutcome :=
  match policy with
  | .pyDict entries =>
    if entries.isEmpty then
      -- Empty policies are equivalent to allowing full access.
      .ok
    else
      match lookupKey entries (.kStr "resources") with
      | none => .validationError .missingResources
      | some resources_section =>
        match resources_section with
        | .pyDict rentries =>
          if rentries.isEmpty then
            .validationError .resourcesEmpty
          else
            pySeq
              (if hasKey rentries (.kStr "*") then
                validate_policy_section rentries (.kStr "*") .star
              else .ok)
              (let resource_policies :=
                rentries.filter (fun p => p.1 ≠ .kStr "*")
              if resource_policies.isEmpty then .ok
              else
                match root with
                | none => .notImplementedError
                | some r =>
                  validatePolicies (get_valid_policy_ids r)
                    resource_policies)
        | _ => .validationError .resourcesNotObject
  | _ => .validationError .notAJsonObject


mutual
/-- The resources reachable from `resource` by recursively following
`list_child_resources` and `item_child_resources` (the resource itself
included).  Used to specify `_get_valid_policy_ids`. -/
def reachableResources : Resource → List Resource
  | .mk pid lcs ics =>
      .mk pid lcs ics :: (reachableResourcesOf lcs ++ reachableResourcesOf ics)

/-- Resources reachable from any member of a list of resources. -/
def reachableResourcesOf : List Resource → List Resource
  | [] => []
  | r :: rs => reachableResources r ++ reachableResourcesOf rs
end

/-- Python truthiness of the `msg` argument of `with_overrides`
(`None` and the empty string are falsy). -/
def pyTruthy : Option String → Bool
  | none => false
  | some s => s ≠ ""

/-- Python `msg or self.msg`. -/
def pyOrElse (msg : Option String) (default_msg : String) : String :=
  if pyTruthy msg then msg.getD default_msg else default_msg

/-- `djblets.webapi.errors.WebAPIError`: an error code, a message, an
HTTP status and headers.  The `headers` attribute may hold a dict or a
callable in Python, so its type is a parameter `H`. -/
structure WebAPIError (H : Type) where
  code : Int
  msg : String
  http_status : Int
  headers : H
  deriving DecidableEq, Repr

/-- `WebAPIError.with_overrides(msg=None, headers=None)`: build a new
`WebAPIError` with the receiver's code and HTTP status, `msg or
self.msg`, and the given headers unless they are `None`.  The receiver
is not mutated (the embedding is pure; the Python method only reads
`self`). -/
def WebAPIError.with_overrides {H : Type} (e : WebAPIError H)
    (msg : Option String) (headers : Option H) : WebAPIError H :=
  let headers' :=
    match headers with
    | none => e.headers
    | some h => h
  { code := e.code
    msg := pyOrElse msg e.msg
    http_status := e.http_status
    headers := headers' }

/-- `WebAPIError.with_message(msg)`: `self.with_overrides(msg)`, the
`headers` argument left at its default `None`. -/
def WebAPIError.with_message {H : Type} (e : WebAPIError H)
    (msg : Option String) : WebAPIError H :=
  e.with_overrides msg none

/-- A `django.contrib.auth.models.User` as consulted by the token's
permission predicates: an identity (primary key) and the
`is_superuser` flag.  Equality of users (`self.user == user`) is
equality of these fields. -/
structure UserModel where
  pk : Nat
  is_superuser : Bool
  deriving DecidableEq, Repr

/-- The fields of `BaseWebAPIToken` read by the operations verified
here: the owning `user`, the optional `expires` timestamp (a point in
time, modelled as an integer), and the primary key `pk` (`None` until
the first save).  The remaining model fields (`token`, `note`,
`policy`, ...) are not consulted by these operations. -/
structure BaseWebAPIToken where
  user : UserModel
  expires : Option Int
  pk : Option Nat
  deriving DecidableEq, Repr

/-- `BaseWebAPIToken.is_accessible_by(user)`:
`user.is_superuser or self.user == user`. -/
def BaseWebAPIToken.is_accessible_by (t : BaseWebAPIToken)
    (user : UserModel) : Bool :=
  user.is_superuser || t.user = user

/-- `BaseWebAPIToken.is_mutable_by(user)`:
`user.is_superuser or self.user == user`. -/
def BaseWebAPIToken.is_mutable_by (t : BaseWebAPIToken)
    (user : UserModel) : Bool :=
  user.is_superuser || t.user = user

/-- `BaseWebAPIToken.is_deletable_by(user)`:
`user.is_superuser or self.user == user`. -/
def BaseWebAPIToken.is_deletable_by (t : BaseWebAPIToken)
    (user : UserModel) : Bool :=
  user.is_superuser || t.user = user

/-- `BaseWebAPIToken.is_expired()`:
`self.expires is not None and timezone.now() >= self.expires`.
`timezone.now()` is passed in as `now`. -/
def BaseWebAPIToken.is_expired (t : BaseWebAPIToken) (now : Int) : Bool :=
  match t.expires with
  | none => false
  | some e => now ≥ e

/-- The externally visible steps of `BaseWebAPIToken.save`: the call
to the superclass `save`, and the emission of the
`webapi_token_updated` signal. -/
inductive SaveEvent where
  | superSave
  | signalTokenUpdated
  deriving DecidableEq, Repr

/-- `BaseWebAPIToken.save(*args, **kwargs)`: record `is_new = self.pk
is None` BEFORE saving, call the superclass `save` (modelled by the
parameter `superSave`, which may assign a primary key and update
timestamp fields), then send `webapi_token_updated` iff the token was
not new.  Returns the saved token and the ordered trace of events. -/
def BaseWebAPIToken.save (superSave : BaseWebAPIToken → BaseWebAPIToken)
    (t : BaseWebAPIToken) : BaseWebAPIToken × List SaveEvent :=
  let is_new := t.pk = none
  let t' := superSave t
  (t', [SaveEvent.superSave] ++
    (if is_new then [] else [SaveEvent.signalTokenUpdated]))


/-- The section shape the specification demands (stated from the
claim's words, to be compared with `validate_policy_section`): a dict
containing an `allow` key and/or a `block` key, whose `allow` and
`block` values, when present, are lists. -/
def sectionShapeSpec (v : PyValue) : Bool :=
  match v with
  | .pyDict s =>
    (hasKey s (.kStr "allow") || hasKey s (.kStr "block")) &&
    (lookupKey s (.kStr "allow")).all PyValue.isList &&
    (lookupKey s (.kStr "block")).all PyValue.isList
  | _ => false

/-- C1: for a policy section that validation reaches (so its key is
present in the parent dict), `_validate_policy_section` returns
normally exactly when the section is a dict with an `allow` and/or
`block` key whose `allow`/`block` values, when present, are lists;
when the shape check fails, the outcome is a raised
`ValidationError`. -/
theorem claim1_validate_policy_section (parent : List (PyKey × PyValue))
    (name : PyKey) (path : SectionPath) (sec : PyValue)
    (h : lookupKey parent name = some sec) :
    (validate_policy_section parent name path = .ok ↔
      sectionShapeSpec sec = true) ∧
    (sectionShapeSpec sec = false →
      ∃ e, validate_policy_section parent name path = .validationError e) := by
  unfold validate_policy_section
  rw [h]
  cases sec with
  | pyDict s =>
    simp only [sectionShapeSpec, hasKey]
    rcases Option.eq_none_or_eq_some (lookupKey s (.kStr "allow")) with hA | ⟨a, hA⟩ <;>
      rcases Option.eq_none_or_eq_some (lookupKey s (.kStr "block")) with hB | ⟨b, hB⟩ <;>
        simp only [hA, hB] <;> simp [Option.all] <;> split_ifs <;> simp_all
  | pyNone => simp [sectionShapeSpec]
  | pyBool b => simp [sectionShapeSpec]
  | pyInt n => simp [sectionShapeSpec]
  | pyStr t => simp [sectionShapeSpec]
  | pyList xs => simp [sectionShapeSpec]

/-- Witness for C1 at a concrete parent and section. -/
theorem claim1_witness :
    lookupKey [(PyKey.kStr "*", PyValue.pyDict [(PyKey.kStr "allow", PyValue.pyList [])])]
        (PyKey.kStr "*") =
      some (PyValue.pyDict [(PyKey.kStr "allow", PyValue.pyList [])]) ∧
    (validate_policy_section
        [(PyKey.kStr "*", PyValue.pyDict [(PyKey.kStr "allow", PyValue.pyList [])])]
        (PyKey.kStr "*") .star = .ok ↔
      sectionShapeSpec (PyValue.pyDict [(PyKey.kStr "allow", PyValue.pyList [])]) = true) :=
  ⟨rfl,
   (claim1_validate_policy_section
     [(PyKey.kStr "*", PyValue.pyDict [(PyKey.kStr "allow", PyValue.pyList [])])]
     (PyKey.kStr "*") .star
     (PyValue.pyDict [(PyKey.kStr "allow", PyValue.pyList [])]) rfl).1⟩

/-- C4: validating an empty policy dict succeeds (an empty policy
grants full access), for any resource tree and also on the abstract
base class. -/
theorem claim4_empty_policy (root : Option Resource) :
    validate_policy root (.pyDict []) = .ok := rfl


/-- A nonempty list is not `isEmpty`. -/
theorem isEmpty_false_of_ne_nil {α : Type} {l : List α} (h : l ≠ []) :
    l.isEmpty = false := by
  cases l with
  | nil => exact absurd rfl h
  | cons a t => rfl

/-- C5: the four top-level rejections of `validate_policy`: a
non-dict policy; a non-empty policy dict with no `resources` key; a
`resources` value that is not a dict; an empty `resources` dict. -/
theorem claim5_top_level_errors :
    (∀ (root : Option Resource) (p : PyValue),
      (∀ entries, p ≠ .pyDict entries) →
      validate_policy root p = .validationError .notAJsonObject) ∧
    (∀ (root : Option Resource) (entries : List (PyKey × PyValue)),
      entries ≠ [] → lookupKey entries (.kStr "resources") = none →
      validate_policy root (.pyDict entries) =
        .validationError .missingResources) ∧
    (∀ (root : Option Resource) (entries : List (PyKey × PyValue))
      (rs : PyValue),
      entries ≠ [] → lookupKey entries (.kStr "resources") = some rs →
      (∀ res, rs ≠ .pyDict res) →
      validate_policy root (.pyDict entries) =
        .validationError .resourcesNotObject) ∧
    (∀ (root : Option Resource) (entries : List (PyKey × PyValue)),
      entries ≠ [] →
      lookupKey entries (.kStr "resources") = some (.pyDict []) →
      validate_policy root (.pyDict entries) =
        .validationError .resourcesEmpty) := by
  refine ⟨?_, ?_, ?_, ?_⟩
  · intro root p hp
    cases p with
    | pyDict entries => exact absurd rfl (hp entries)
    | pyNone => rfl
    | pyBool b => rfl
    | pyInt n => rfl
    | pyStr t => rfl
    | pyList xs => rfl
  · intro root entries hne hlook
    simp only [validate_policy, isEmpty_false_of_ne_nil hne, hlook]
    rfl
  · intro root entries rs hne hlook hrs
    simp only [validate_policy, isEmpty_false_of_ne_nil hne, hlook]
    cases rs with
    | pyDict res => exact absurd rfl (hrs res)
    | pyNone => rfl
    | pyBool b => rfl
    | pyInt n => rfl
    | pyStr t => rfl
    | pyList xs => rfl
  · intro root entries hne hlook
    simp only [validate_policy, isEmpty_false_of_ne_nil hne, hlook]
    rfl

/-- Witness for C5 at concrete policies, one per rejection. -/
theorem claim5_witness :
    validate_policy none (.pyStr "x") =
      .validationError .notAJsonObject ∧
    validate_policy none (.pyDict [(.kStr "a", .pyInt 1)]) =
      .validationError .missingResources ∧
    validate_policy none (.pyDict [(.kStr "resources", .pyInt 1)]) =
      .validationError .resourcesNotObject ∧
    validate_policy none (.pyDict [(.kStr "resources", .pyDict [])]) =
      .validationError .resourcesEmpty :=
  ⟨claim5_top_level_errors.1 none (.pyStr "x")
      (fun _ h => PyValue.noConfusion h),
   claim5_top_level_errors.2.1 none [(.kStr "a", .pyInt 1)]
      (fun h => List.noConfusion h) rfl,
   claim5_top_level_errors.2.2.1 none [(.kStr "resources", .pyInt 1)]
      (.pyInt 1) (fun h => List.noConfusion h) rfl
      (fun _ h => PyValue.noConfusion h),
   claim5_top_level_errors.2.2.2 none [(.kStr "resources", .pyDict [])]
      (fun h => List.noConfusion h) rfl⟩

/-- C7: `with_overrides` copies the receiver's `code` and
`http_status`, takes the given `msg` when truthy and the receiver's
otherwise, and takes the given `headers` unless they are `None`; being
a pure constructor call, it leaves the receiver untouched.
`with_message(msg)` coincides with `with_overrides(msg)`. -/
theorem claim7_with_overrides {H : Type} (e : WebAPIError H)
    (msg : Option String) (headers : Option H) :
    (e.with_overrides msg headers).code = e.code ∧
    (e.with_overrides msg headers).http_status = e.http_status ∧
    (e.with_overrides msg headers).msg =
      (if pyTruthy msg then msg.getD e.msg else e.msg) ∧
    (e.with_overrides msg headers).headers = headers.getD e.headers ∧
    e.with_message msg = e.with_overrides msg none := by
  refine ⟨rfl, rfl, rfl, ?_, rfl⟩
  cases headers with
  | none => rfl
  | some h => rfl

/-- C8: the three permission predicates of `BaseWebAPIToken` agree,
and hold exactly for superusers and the token's owner. -/
theorem claim8_permission_predicates (t : BaseWebAPIToken)
    (user : UserModel) :
    t.is_accessible_by user = t.is_mutable_by user ∧
    t.is_mutable_by user = t.is_deletable_by user ∧
    (t.is_accessible_by user = true ↔
      user.is_superuser = true ∨ t.user = user) := by
  refine ⟨rfl, rfl, ?_⟩
  simp [BaseWebAPIToken.is_accessible_by]

/-- C9: `is_expired` is `False` when no expiration date is set, and
otherwise holds exactly when the current time has reached the
expiration; at the exact expiration instant the token counts as
expired. -/
theorem claim9_is_expired (t : BaseWebAPIToken) (now : Int) :
    (t.expires = none → t.is_expired now = false) ∧
    (∀ e, t.expires = some e → (t.is_expired now = true ↔ e ≤ now)) ∧
    (t.expires = some now → t.is_expired now = true) := by
  refine ⟨?_, ?_, ?_⟩
  · intro h
    simp [BaseWebAPIToken.is_expired, h]
  · intro e h
    simp [BaseWebAPIToken.is_expired, h]
  · intro h
    simp [BaseWebAPIToken.is_expired, h]

/-- Witness for C9: a token with no expiration is never expired; a
token expiring at time 5 is expired at time 5. -/
theorem claim9_witness :
    BaseWebAPIToken.is_expired ⟨⟨1, false⟩, none, none⟩ 0 = false ∧
    (BaseWebAPIToken.is_expired ⟨⟨1, false⟩, some 5, none⟩ 5 = true ↔
      (5 : Int) ≤ 5) ∧
    BaseWebAPIToken.is_expired ⟨⟨1, false⟩, some 5, none⟩ 5 = true :=
  ⟨(claim9_is_expired ⟨⟨1, false⟩, none, none⟩ 0).1 rfl,
   (claim9_is_expired ⟨⟨1, false⟩, some 5, none⟩ 5).2.1 5 rfl,
   (claim9_is_expired ⟨⟨1, false⟩, some 5, none⟩ 5).2.2 rfl⟩

/-- C10: `save` sends `webapi_token_updated` after the superclass
save exactly when the token already had a primary key before saving;
a first save (pk `None`) sends no signal. -/
theorem claim10_save_signal
    (superSave : BaseWebAPIToken → BaseWebAPIToken)
    (t : BaseWebAPIToken) :
    (BaseWebAPIToken.save superSave t).2 =
      (if t.pk = none then [SaveEvent.superSave]
       else [SaveEvent.superSave, SaveEvent.signalTokenUpdated]) ∧
    (SaveEvent.signalTokenUpdated ∈ (BaseWebAPIToken.save superSave t).2 ↔
      t.pk ≠ none) := by
  constructor
  · cases hpk : t.pk <;> simp [BaseWebAPIToken.save, hpk]
  · cases hpk : t.pk <;> simp [BaseWebAPIToken.save, hpk]


/-- A key occurring in an association list is found by `hasKey`. -/
theorem hasKey_of_mem {l : List (PyKey × PyValue)} {k : PyKey} {v : PyValue}
    (h : (k, v) ∈ l) : hasKey l k = true := by
  induction l with
  | nil => cases h
  | cons p rest ih =>
    obtain ⟨k', v'⟩ := p
    simp only [hasKey, lookupKey]
    by_cases hk : k' = k
    · simp [hk]
    · rw [if_neg hk]
      cases h with
      | head => exact absurd rfl hk
      | tail _ hmem => exact ih hmem

/-- `_validate_policy_section` on a present key returns normally or
raises a `ValidationError`. -/
theorem policySection_ok_or_error (parent : List (PyKey × PyValue))
    (name : PyKey) (path : SectionPath) (h : hasKey parent name = true) :
    validate_policy_section parent name path = .ok ∨
    ∃ e, validate_policy_section parent name path = .validationError e := by
  unfold hasKey at h
  rcases Option.eq_none_or_eq_some (lookupKey parent name) with hl | ⟨sec, hl⟩
  · rw [hl] at h
    simp at h
  · cases sec with
    | pyDict s =>
      simp only [validate_policy_section, hl]
      split_ifs <;> first
        | exact Or.inl rfl
        | exact Or.inr ⟨_, rfl⟩
    | pyNone => exact Or.inr ⟨.sectionNotObject path, by simp [validate_policy_section, hl]⟩
    | pyBool b => exact Or.inr ⟨.sectionNotObject path, by simp [validate_policy_section, hl]⟩
    | pyInt n => exact Or.inr ⟨.sectionNotObject path, by simp [validate_policy_section, hl]⟩
    | pyStr t => exact Or.inr ⟨.sectionNotObject path, by simp [validate_policy_section, hl]⟩
    | pyList xs => exact Or.inr ⟨.sectionNotObject path, by simp [validate_policy_section, hl]⟩

/-- The subsection loop, when every listed key is present in the
carried section dict, returns normally or raises a
`ValidationError`. -/
theorem validateSubsectionItems_ok_or_error (pid : PyKey)
    (sec : List (PyKey × PyValue)) :
    ∀ l : List (PyKey × PyValue), (∀ p ∈ l, hasKey sec p.1 = true) →
    validateSubsectionItems pid sec l = .ok ∨
    ∃ e, validateSubsectionItems pid sec l = .validationError e := by
  intro l
  induction l with
  | nil => exact fun _ => Or.inl rfl
  | cons p rest ih =>
    intro h
    obtain ⟨name, v⟩ := p
    simp only [validateSubsectionItems]
    by_cases hs : name.isStr = true
    · rw [if_neg (by simp [hs])]
      have hkey : hasKey sec name = true := h (name, v) (by simp)
      rcases policySection_ok_or_error sec name (.sub pid name) hkey with
        hok | ⟨e, he⟩
      · rw [hok]
        exact ih (fun q hq => h q (List.mem_cons_of_mem _ hq))
      · rw [he]
        exact Or.inr ⟨e, rfl⟩
    · rw [if_pos (by simpa using hs)]
      exact Or.inr ⟨_, rfl⟩

/-- Validating one resource policy's section returns normally, raises
a `ValidationError`, or raises `AttributeError` (non-dict section). -/
theorem validateResourceSection_outcomes (pid : PyKey) (sec : PyValue) :
    validateResourceSection pid sec = .ok ∨
    (∃ e, validateResourceSection pid sec = .validationError e) ∨
    validateResourceSection pid sec = .attributeError := by
  cases sec with
  | pyDict s =>
    rcases validateSubsectionItems_ok_or_error pid s s
        (fun p hp => by
          obtain ⟨k, v⟩ := p
          exact hasKey_of_mem hp) with hok | ⟨e, he⟩
    · exact Or.inl hok
    · exact Or.inr (Or.inl ⟨e, he⟩)
  | pyNone => exact Or.inr (Or.inr rfl)
  | pyBool b => exact Or.inr (Or.inr rfl)
  | pyInt n => exact Or.inr (Or.inr rfl)
  | pyStr t => exact Or.inr (Or.inr rfl)
  | pyList xs => exact Or.inr (Or.inr rfl)

/-- The resource-policy loop returns normally, raises a
`ValidationError`, or raises `AttributeError`. -/
theorem validatePolicies_outcomes (valid : List String) :
    ∀ l : List (PyKey × PyValue),
    validatePolicies valid l = .ok ∨
    (∃ e, validatePolicies valid l = .validationError e) ∨
    validatePolicies valid l = .attributeError := by
  intro l
  induction l with
  | nil => exact Or.inl rfl
  | cons p rest ih =>
    obtain ⟨pid, sec⟩ := p
    simp only [validatePolicies]
    by_cases hv : keyInIds pid valid = true
    · rw [if_neg (by simp [hv])]
      rcases validateResourceSection_outcomes pid sec with hok | ⟨e, he⟩ | hattr
      · rw [hok]
        exact ih
      · rw [he]
        exact Or.inr (Or.inl ⟨e, rfl⟩)
      · rw [hattr]
        exact Or.inr (Or.inr rfl)
    · rw [if_pos (by simpa using hv)]
      exact Or.inr (Or.inl ⟨_, rfl⟩)


/-- In the main case — a non-empty policy dict whose `resources` value
is a non-empty dict — `validate_policy` is the `'*'` section check
followed by the resource-policy loop (which consults
`get_root_resource` only when some non-`'*'` key exists). -/
theorem validate_policy_main_eq (root : Option Resource)
    (entries rentries : List (PyKey × PyValue))
    (hne : entries.isEmpty = false)
    (hl : lookupKey entries (.kStr "resources") = some (.pyDict rentries))
    (hre : rentries.isEmpty = false) :
    validate_policy root (.pyDict entries) =
      pySeq
        (if hasKey rentries (.kStr "*") then
          validate_policy_section rentries (.kStr "*") .star
        else .ok)
        (if (rentries.filter (fun p => p.1 ≠ .kStr "*")).isEmpty then .ok
         else
           match root with
           | none => .notImplementedError
           | some r =>
             validatePolicies (get_valid_policy_ids r)
               (rentries.filter (fun p => p.1 ≠ .kStr "*"))) := by
  simp [validate_policy, hne, hl, hre]

/-- `pySeq` of two statements preserves outcome shapes: if the first
can only return or raise `ValidationError`, the sequence's outcome is
one of the two statements' outcomes. -/
theorem pySeq_outcomes {a b : PyOutcome}
    (ha : a = .ok ∨ ∃ e, a = .validationError e)
    (hb : b = .ok ∨ (∃ e, b = .validationError e) ∨
      b = .notImplementedError ∨ b = .attributeError) :
    pySeq a b = .ok ∨ (∃ e, pySeq a b = .validationError e) ∨
    pySeq a b = .notImplementedError ∨ pySeq a b = .attributeError := by
  rcases ha with h | ⟨e, h⟩ <;> subst h
  · simpa [pySeq] using hb
  · exact Or.inr (Or.inl ⟨e, rfl⟩)

/-- C2 (amended): `validate_policy` returns normally or raises
`ValidationError`, `NotImplementedError` (a resource-specific policy
validated on the abstract base class, whose `get_root_resource` is not
implemented) or `AttributeError` (a resource section with a valid
policy id that is not a dict); no other exception — in particular no
`KeyError` from the section lookups — escapes. -/
theorem claim2_validate_policy_outcomes (root : Option Resource)
    (policy : PyValue) :
    validate_policy root policy = .ok ∨
    (∃ e, validate_policy root policy = .validationError e) ∨
    validate_policy root policy = .notImplementedError ∨
    validate_policy root policy = .attributeError := by
  cases policy with
  | pyDict entries =>
    by_cases hne : entries.isEmpty = true
    · exact Or.inl (by simp [validate_policy, hne])
    · rcases Option.eq_none_or_eq_some (lookupKey entries (.kStr "resources"))
        with hl | ⟨rs, hl⟩
      · exact Or.inr (Or.inl ⟨.missingResources,
          by simp [validate_policy, hne, hl]⟩)
      · cases rs with
        | pyDict rentries =>
          by_cases hre : rentries.isEmpty = true
          · exact Or.inr (Or.inl ⟨.resourcesEmpty,
              by simp [validate_policy, hne, hl, hre]⟩)
          · rw [validate_policy_main_eq root entries rentries
              (by simpa using hne) hl (by simpa using hre)]
            apply pySeq_outcomes
            · by_cases hstar : hasKey rentries (.kStr "*") = true
              · rw [if_pos hstar]
                exact policySection_ok_or_error rentries (.kStr "*")
                  .star hstar
              · rw [if_neg hstar]
                exact Or.inl rfl
            · by_cases hf :
                (rentries.filter fun p => p.1 ≠ .kStr "*").isEmpty = true
              · rw [if_pos hf]
                exact Or.inl rfl
              · rw [if_neg hf]
                cases root with
                | none => exact Or.inr (Or.inr (Or.inl rfl))
                | some r =>
                  rcases validatePolicies_outcomes (get_valid_policy_ids r)
                      (rentries.filter fun p => p.1 ≠ .kStr "*") with
                    hok | ⟨e, he⟩ | hattr
                  · exact Or.inl hok
                  · exact Or.inr (Or.inl ⟨e, he⟩)
                  · exact Or.inr (Or.inr (Or.inr hattr))
        | pyNone => exact Or.inr (Or.inl ⟨.resourcesNotObject,
            by simp [validate_policy, hne, hl]⟩)
        | pyBool b => exact Or.inr (Or.inl ⟨.resourcesNotObject,
            by simp [validate_policy, hne, hl]⟩)
        | pyInt n => exact Or.inr (Or.inl ⟨.resourcesNotObject,
            by simp [validate_policy, hne, hl]⟩)
        | pyStr t => exact Or.inr (Or.inl ⟨.resourcesNotObject,
            by simp [validate_policy, hne, hl]⟩)
        | pyList xs => exact Or.inr (Or.inl ⟨.resourcesNotObject,
            by simp [validate_policy, hne, hl]⟩)
  | pyNone => exact Or.inr (Or.inl ⟨.notAJsonObject, rfl⟩)
  | pyBool b => exact Or.inr (Or.inl ⟨.notAJsonObject, rfl⟩)
  | pyInt n => exact Or.inr (Or.inl ⟨.notAJsonObject, rfl⟩)
  | pyStr t => exact Or.inr (Or.inl ⟨.notAJsonObject, rfl⟩)
  | pyList xs => exact Or.inr (Or.inl ⟨.notAJsonObject, rfl⟩)

/-- Counterexample to C2 as stated: on a subclass whose root resource
has policy id `foo`, the policy `{'resources': {'foo': 'x'}}` makes
`validate_policy` raise `AttributeError` (calling `.items()` on the
string section), not `ValidationError`; and on the abstract base
class, `{'resources': {'a': {}}}` raises `NotImplementedError` from
`get_root_resource`. -/
theorem claim2_counterexample :
    validate_policy (some (.mk (some "foo") [] []))
      (.pyDict [(.kStr "resources",
        .pyDict [(.kStr "foo", .pyStr "x")])]) = .attributeError ∧
    validate_policy none
      (.pyDict [(.kStr "resources",
        .pyDict [(.kStr "a", .pyDict [])])]) = .notImplementedError :=
  ⟨rfl, rfl⟩


mutual
/-- Membership in `_get_valid_policy_ids`' result is exactly having a
reachable resource carrying that `policy_id`. -/
theorem mem_get_valid_policy_ids (r : Resource) (pid : String) :
    pid ∈ get_valid_policy_ids r ↔
      ∃ x ∈ reachableResources r, x.policy_id = some pid := by
  cases r with
  | mk p lcs ics =>
    have h1 := mem_getValidPolicyIdsOf lcs pid
    have h2 := mem_getValidPolicyIdsOf ics pid
    cases p <;>
      simp [get_valid_policy_ids, reachableResources, Resource.policy_id,
        h1, h2, Option.toList] <;>
      aesop

/-- List version of `mem_get_valid_policy_ids`. -/
theorem mem_getValidPolicyIdsOf (rs : List Resource) (pid : String) :
    pid ∈ getValidPolicyIdsOf rs ↔
      ∃ x ∈ reachableResourcesOf rs, x.policy_id = some pid := by
  cases rs with
  | nil => simp [getValidPolicyIdsOf, reachableResourcesOf]
  | cons r rest =>
    have h1 := mem_get_valid_policy_ids r pid
    have h2 := mem_getValidPolicyIdsOf rest pid
    simp only [getValidPolicyIdsOf, reachableResourcesOf, List.mem_append,
      h1, h2]
    constructor
    · rintro (⟨x, hx, hpx⟩ | ⟨x, hx, hpx⟩)
      · exact ⟨x, Or.inl hx, hpx⟩
      · exact ⟨x, Or.inr hx, hpx⟩
    · rintro ⟨x, hx | hx, hpx⟩
      · exact Or.inl ⟨x, hx, hpx⟩
      · exact Or.inr ⟨x, hx, hpx⟩
end

/-- The resource-policy loop rejects the first key that is not a valid
policy id, provided the earlier entries have valid ids and
shape-correct sections. -/
theorem validatePolicies_first_invalid (valid : List String) (k : PyKey)
    (v : PyValue) :
    ∀ pre rest : List (PyKey × PyValue),
    (∀ p ∈ pre, keyInIds p.1 valid = true ∧
      validateResourceSection p.1 p.2 = .ok) →
    keyInIds k valid = false →
    validatePolicies valid (pre ++ (k, v) :: rest) =
      .validationError (.invalidPolicyId k) := by
  intro pre
  induction pre with
  | nil =>
    intro rest _ hk
    simp only [List.nil_append, validatePolicies]
    rw [if_pos (by simp [hk])]
  | cons p ps ih =>
    intro rest hpre hk
    obtain ⟨k', v'⟩ := p
    have h1 := hpre (k', v') (List.mem_cons_self _ _)
    have hrec := ih rest (fun q hq => hpre q (List.mem_cons_of_mem _ hq)) hk
    simp only [List.cons_append, validatePolicies]
    rw [if_neg (by simp [h1.1]), h1.2]
    exact hrec


/-- A list whose keys are all `'*'` has an empty non-`'*'` filter. -/
theorem filter_ne_star_eq_nil (l : List (PyKey × PyValue))
    (h : ∀ p ∈ l, p.1 = .kStr "*") :
    l.filter (fun p => p.1 ≠ .kStr "*") = [] := by
  induction l with
  | nil => rfl
  | cons p rest ih =>
    have hp := h p (List.mem_cons_self _ _)
    have hr := ih (fun q hq => h q (List.mem_cons_of_mem _ hq))
    simp [List.filter_cons, hp, hr]
    exact fun a b hab => h (a, b) (List.mem_cons_of_mem _ hab)

/-- Counterexample to C3 as stated: with a root resource of policy id
`foo`, the policy `{'resources': {'foo': 'x', 'bad': {'allow': []}}}`
has `bad` as a non-`'*'` key that is no valid policy id, yet
`validate_policy` raises `AttributeError` while processing the earlier
`foo` section (a string, so `.items()` fails) and never reaches the
invalid key. -/
theorem claim3_counterexample :
    validate_policy (some (.mk (some "foo") [] []))
      (.pyDict [(.kStr "resources",
        .pyDict [(.kStr "foo", .pyStr "x"),
                 (.kStr "bad", .pyDict [(.kStr "allow", .pyList [])])])]) =
      .attributeError :=
  rfl

/-- C3 (amended): when validation reaches the resource-policy loop —
the `'*'` section check passes if present, and every non-`'*'` entry
before the first invalid key has a valid policy id and a section
passing validation — `validate_policy` raises `ValidationError` about
that first invalid key; and `_get_valid_policy_ids` computes exactly
the `policy_id`s of the resources reachable from the root via
`list_child_resources` and `item_child_resources`. -/
theorem claim3_first_invalid_policy_id (root : Resource)
    (entries rentries pre rest : List (PyKey × PyValue))
    (k : PyKey) (v : PyValue)
    (hne : entries ≠ [])
    (hres : lookupKey entries (.kStr "resources") = some (.pyDict rentries))
    (hsplit : rentries.filter (fun p => p.1 ≠ .kStr "*") =
      pre ++ (k, v) :: rest)
    (hstar : hasKey rentries (.kStr "*") = true →
      validate_policy_section rentries (.kStr "*") .star = .ok)
    (hpre : ∀ p ∈ pre, keyInIds p.1 (get_valid_policy_ids root) = true ∧
      validateResourceSection p.1 p.2 = .ok)
    (hk : keyInIds k (get_valid_policy_ids root) = false) :
    validate_policy (some root) (.pyDict entries) =
      .validationError (.invalidPolicyId k) ∧
    ∀ pid : String, pid ∈ get_valid_policy_ids root ↔
      ∃ x ∈ reachableResources root, x.policy_id = some pid := by
  constructor
  · have hrne : rentries ≠ [] := by
      intro h
      rw [h] at hsplit
      simp at hsplit
    rw [validate_policy_main_eq (some root) entries rentries
      (isEmpty_false_of_ne_nil hne) hres (isEmpty_false_of_ne_nil hrne),
      hsplit,
      if_neg (show ¬((pre ++ (k, v) :: rest).isEmpty = true) by simp)]
    have hv := validatePolicies_first_invalid (get_valid_policy_ids root)
      k v pre rest hpre hk
    by_cases hstar' : hasKey rentries (.kStr "*") = true
    · rw [if_pos hstar', hstar hstar']
      exact hv
    · rw [if_neg hstar']
      exact hv
  · exact mem_get_valid_policy_ids root

/-- Witness for C3 at a concrete root and policy. -/
theorem claim3_witness :
    validate_policy (some (.mk (some "foo") [] []))
      (.pyDict [(.kStr "resources", .pyDict [(.kStr "bad", .pyDict [])])]) =
      .validationError (.invalidPolicyId (.kStr "bad")) ∧
    ("foo" ∈ get_valid_policy_ids (.mk (some "foo") [] []) ↔
      ∃ x ∈ reachableResources (.mk (some "foo") [] []),
        x.policy_id = some "foo") := by
  have h := claim3_first_invalid_policy_id (.mk (some "foo") [] [])
    [(.kStr "resources", .pyDict [(.kStr "bad", .pyDict [])])]
    [(.kStr "bad", .pyDict [])] [] [] (.kStr "bad") (.pyDict [])
    (by simp) rfl rfl
    (fun hcontra => absurd hcontra (by decide))
    (fun p hp => absurd hp (by simp))
    rfl
  exact ⟨h.1, h.2 "foo"⟩

/-- C6: a non-empty policy whose `resources` section has only the
`'*'` key, with a section passing the shape check, is accepted — for
every resource tree and in particular on the abstract base class,
whose `get_root_resource` raises `NotImplementedError`: the resource
tree is never consulted. -/
theorem claim6_star_only_policy (entries rentries : List (PyKey × PyValue))
    (hne : entries ≠ [])
    (hres : lookupKey entries (.kStr "resources") = some (.pyDict rentries))
    (hrne : rentries ≠ [])
    (hstar : ∀ p ∈ rentries, p.1 = .kStr "*")
    (hsec : validate_policy_section rentries (.kStr "*") .star = .ok) :
    ∀ root : Option Resource, validate_policy root (.pyDict entries) = .ok := by
  intro root
  rw [validate_policy_main_eq root entries rentries
    (isEmpty_false_of_ne_nil hne) hres (isEmpty_false_of_ne_nil hrne)]
  have hk : hasKey rentries (.kStr "*") = true := by
    cases rentries with
    | nil => exact absurd rfl hrne
    | cons p prest =>
      obtain ⟨k', v'⟩ := p
      have h := hstar (k', v') (List.mem_cons_self _ _)
      simp only at h
      simp [hasKey, lookupKey, h]
  rw [if_pos hk, hsec, filter_ne_star_eq_nil rentries hstar]
  rfl

/-- Witness for C6: a `'*'`-only policy accepted on the abstract base
class. -/
theorem claim6_witness :
    validate_policy none
      (.pyDict [(.kStr "resources",
        .pyDict [(.kStr "*", .pyDict [(.kStr "allow", .pyList [])])])]) =
      .ok :=
  claim6_star_only_policy
    [(.kStr "resources",
      .pyDict [(.kStr "*", .pyDict [(.kStr "allow", .pyList [])])])]
    [(.kStr "*", .pyDict [(.kStr "allow", .pyList [])])]
    (by simp) rfl (by simp)
    (by
      intro p hp
      simp only [List.mem_singleton] at hp
      subst hp
      rfl)
    rfl none

end Djblets
